import Mathlib

/-!
Verification development for the multi-sample voice-enrollment core
(`audio/embedding_utils.py`).

Modelling conventions:
* Python floats are modelled as rationals (`ℚ`); the floating-point
  square root and base-10 logarithm, which are approximate in the source
  as well, are modelled by computable rational stand-ins (`sqrtQ`,
  `log10Q`) that are exact on perfect squares / powers of ten.  No claim
  below depends on the values of these stand-ins beyond sign and the
  surrounding formulae.
* `soundfile.sf.read` is modelled by a function `AudioFS : String →
  Option Audio`: `none` models a read that raises (unreadable or
  undecodable file), `some` returns the decoded frames and the sample
  rate.  `soundfile` always reports a positive sample rate, recorded by
  the `sr_pos` field.  Mono files are represented with one channel;
  `np.mean(·, axis=1)` on an `(N, 1)` array is the identity on the
  channel value, so the unconditional per-frame channel average
  `chanMean` models both the mono and the multi-channel branch.
* Fallible Python code returns `Except`: `FuseError.valueError` models
  `raise ValueError`, `FuseError.zeroDivisionError` models the
  `ZeroDivisionError` of a float division by exactly zero.
* `torch.nn.functional.normalize(v, dim=-1)` is `v / max(‖v‖₂, eps)`
  with `eps = 1e-12`; it never raises, and returns the zero vector for a
  (near-)zero input.  Tensor `.to(device)` / `.float()` placement and
  precision casts are identities in the rational model.
-/

/-- Arithmetic mean of a list of rationals, modelling `np.mean`; the
empty list yields `0` (the code only takes means of nonempty data). -/
def npMean (l : List ℚ) : ℚ := l.sum / (l.length : ℚ)

/-- Python `int(q)`: truncation toward zero.  It is only applied to
nonnegative quantities in this development, where it agrees with the
floor. -/
def pyInt (q : ℚ) : ℤ := Int.tdiv q.num (q.den : ℤ)

/-- Fuel-driven base-10 integer logarithm (structurally recursive so
that proofs can evaluate it by rewriting). -/
def natLog10Aux : ℕ → ℕ → ℕ
  | 0, _ => 0
  | fuel + 1, n => if n < 10 then 0 else natLog10Aux fuel (n / 10) + 1

/-- Base-10 integer logarithm of a natural number. -/
def natLog10 (n : ℕ) : ℕ := natLog10Aux n n

/-- Computable stand-in for the floating-point `np.log10`: the integer
magnitude of the argument, exact on powers of ten.  The SNR claims never
depend on its values, only on the formula it sits in. -/
def log10Q (q : ℚ) : ℚ :=
  if q ≤ 0 then 0
  else if 1 ≤ q then (natLog10 (pyInt q).toNat : ℚ)
  else -((natLog10 (pyInt q⁻¹).toNat : ℚ))

/-- Largest `r ≤ k` with `r * r ≤ n`, by downward search (structural
recursion, evaluation-friendly). -/
def isqrtGo (n : ℕ) : ℕ → ℕ
  | 0 => 0
  | k + 1 => if (k + 1) * (k + 1) ≤ n then k + 1 else isqrtGo n k

/-- Integer square root (exact on perfect squares). -/
def isqrt (n : ℕ) : ℕ := isqrtGo n n

/-- Computable stand-in for the floating-point square root: exact on
perfect squares of rationals, a floor-style approximation elsewhere;
always nonnegative. -/
def sqrtQ (q : ℚ) : ℚ :=
  if q ≤ 0 then 0
  else
    let n := q.num.toNat
    let d := q.den
    if isqrt n * isqrt n = n ∧ isqrt d * isqrt d = d then
      (isqrt n : ℚ) / (isqrt d : ℚ)
    else (isqrt (n * d) : ℚ) / (d : ℚ)

/-- Insert a rational into a sorted list, keeping it sorted. -/
def insertSorted (x : ℚ) : List ℚ → List ℚ
  | [] => [x]
  | y :: ys => if x ≤ y then x :: y :: ys else y :: insertSorted x ys

/-- Insertion sort in ascending order, modelling `np.sort`. -/
def sortAsc (xs : List ℚ) : List ℚ := xs.foldr insertSorted []

/-- Model of `np.percentile(xs, p)` with the default linear
interpolation: sort, interpolate between the two neighbouring order
statistics at rank `(n-1)·p/100`. -/
def npPercentile (xs : List ℚ) (p : ℚ) : ℚ :=
  let sorted := sortAsc xs
  let n := sorted.length
  if n = 0 then 0
  else
    let rank := ((n : ℚ) - 1) * (p / 100)
    let lo := (pyInt rank).toNat
    let hi := min (lo + 1) (n - 1)
    let g := rank - (lo : ℚ)
    sorted.getD lo 0 + g * (sorted.getD hi 0 - sorted.getD lo 0)

/-- Decoded audio as returned by `sf.read`: per-frame channel values and
the sample rate.  `soundfile` always reports a positive sample rate. -/
structure Audio where
  data : List (List ℚ)
  sr : ℤ
  sr_pos : 0 < sr

/-- The filesystem/decoder: `none` models `sf.read` raising for this
path (unreadable or undecodable file). -/
def AudioFS : Type := String → Option Audio

/-- Per-frame channel average, modelling `np.mean(data, axis=1)`; the
identity on single-channel frames. -/
def chanMean (frame : List ℚ) : ℚ := npMean frame

/-- Model of `get_audio_duration`: `len(data) / sr` on success, `0.0`
when `sf.read` raises. -/
def get_audio_duration (fs : AudioFS) (path : String) : ℚ :=
  match fs path with
  | none => 0
  | some a => (a.data.length : ℚ) / (a.sr : ℚ)

/-- Model of `estimate_snr`, clause by clause from the source: empty
data or nonpositive rate → 0; near-silent overall RMS → 0; fewer than 10
~20 ms frames → 20; near-zero 10th-percentile noise floor → 40;
otherwise `20·log10(rms/floor)` clamped to `[0, 60]`; any exception
(modelled by `fs path = none`) → 20. -/
def estimate_snr (fs : AudioFS) (path : String) : ℚ :=
  match fs path with
  | none => 20
  | some a =>
    if a.data.length = 0 ∨ a.sr ≤ 0 then 0
    else
      let audio := a.data.map chanMean
      let rms_total := sqrtQ (npMean (audio.map (fun x => x * x)))
      if rms_total < 1 / 10 ^ 10 then 0
      else
        let frame_size := max 1 (pyInt ((a.sr : ℚ) * (2 / 100))).toNat
        let n_frames := audio.length / frame_size
        if n_frames < 10 then 20
        else
          let frame_rms := (List.range n_frames).map fun i =>
            sqrtQ (npMean (((audio.drop (i * frame_size)).take frame_size).map (fun x => x * x)))
          let noise_floor := npPercentile frame_rms 10
          if noise_floor < 1 / 10 ^ 10 then 40
          else max 0 (min 60 (20 * log10Q (rms_total / noise_floor)))

/-- Model of the `AudioSampleInfo` dataclass (field defaults as in the
source: `is_primary = False`, `weight = 1.0`). -/
structure AudioSampleInfo where
  path : String
  duration : ℚ
  transcript : Option String := none
  snr_estimate : Option ℚ := none
  is_primary : Bool := false
  weight : ℚ := 1
  deriving Repr, DecidableEq

/-- Default record used with `List.getD` in statements. -/
def dummySample : AudioSampleInfo :=
  { path := "", duration := 0 }

/-- Python `x or 20.0` on an optional float: both `None` and the falsy
`0.0` fall back to `20.0`. -/
def pyOr20 : Option ℚ → ℚ
  | none => 20
  | some x => if x = 0 then 20 else x

/-- The key maximised by the primary re-selection:
`duration * (snr_estimate or 20.0)`. -/
def primaryKey (s : AudioSampleInfo) : ℚ := s.duration * pyOr20 s.snr_estimate

/-- Characters of Python `str.strip()`: leading and trailing whitespace
removed (structural model of the source's `.strip()`). -/
def pyStrip (s : String) : List Char :=
  ((s.data.dropWhile Char.isWhitespace).reverse.dropWhile Char.isWhitespace).reverse

/-- Truthiness of `s.transcript and s.transcript.strip()`. -/
def hasTranscript (s : AudioSampleInfo) : Bool :=
  match s.transcript with
  | none => false
  | some t => !(pyStrip t).isEmpty

/-- Transcript padding of `analyze_audio_samples`: default to all-`None`
when absent, extend with `None` when shorter than the path list. -/
def paddedTranscripts (paths : List String)
    (transcripts : Option (List (Option String))) : List (Option String) :=
  let tl := transcripts.getD (List.replicate paths.length none)
  if tl.length < paths.length then
    tl ++ List.replicate (paths.length - tl.length) none
  else tl

/-- First phase of `analyze_audio_samples`: build one record per path
with measured duration and SNR, the first record default-primary. -/
def analyzeStage1 (fs : AudioFS) (paths : List String)
    (transcripts : Option (List (Option String))) : List AudioSampleInfo :=
  (paths.zip (paddedTranscripts paths transcripts)).enum.map fun p =>
    { path := p.2.1
      duration := get_audio_duration fs p.2.1
      transcript := p.2.2
      snr_estimate := some (estimate_snr fs p.2.1)
      is_primary := p.1 == 0 }

/-- Sum of the durations of a record set. -/
def totalDuration (samples : List AudioSampleInfo) : ℚ :=
  (samples.map (·.duration)).sum

/-- Weighting phase: when the total duration is positive, set each
weight to `0.7·(duration/total) + 0.3·min(1, snr/40)`; otherwise leave
the records (and their default weights) untouched. -/
def applyDurationQualityWeights (samples : List AudioSampleInfo) : List AudioSampleInfo :=
  if 0 < totalDuration samples then
    samples.map fun s =>
      let duration_weight := s.duration / totalDuration samples
      let snr := pyOr20 s.snr_estimate
      let quality_weight := min 1 (snr / 40)
      { s with weight := 7 / 10 * duration_weight + 3 / 10 * quality_weight }
  else samples

/-- Sum of the weights of a record set. -/
def totalWeight (samples : List AudioSampleInfo) : ℚ :=
  (samples.map (·.weight)).sum

/-- Renormalisation phase: divide every weight by the weight sum when
that sum is positive, else leave the records untouched. -/
def renormalizeWeights (samples : List AudioSampleInfo) : List AudioSampleInfo :=
  if 0 < totalWeight samples then
    samples.map fun s => { s with weight := s.weight / totalWeight samples }
  else samples

/-- Indices of the records whose transcript is present and nonblank,
modelling the `samples_with_transcript` comprehension. -/
def transcriptIndices (samples : List AudioSampleInfo) : List ℕ :=
  (samples.enum.filter fun p => hasTranscript p.2).map Prod.fst

/-- Python `max(cs, key=...)` over a nonempty list `c :: cs`: the first
element attaining the maximal key. -/
def pyMaxBy (key : ℕ → ℚ) (c : ℕ) (cs : List ℕ) : ℕ :=
  cs.foldl (fun b i => if key b < key i then i else b) c

/-- The candidate index list of the primary re-selection: the
transcript-bearing indices, or every index when there are none. -/
def primaryCandidates (samples : List AudioSampleInfo) : List ℕ :=
  if (transcriptIndices samples).isEmpty then List.range samples.length
  else transcriptIndices samples

/-- The `best_idx` of the primary re-selection: Python
`max(candidates, key=lambda i: samples[i].duration * (samples[i].snr_estimate or 20.0))`. -/
def bestIndex (samples : List AudioSampleInfo) : ℕ :=
  match primaryCandidates samples with
  | [] => 0
  | c :: cs => pyMaxBy (fun i => primaryKey (samples.getD i dummySample)) c cs

/-- Primary re-selection phase: among transcript-bearing records (or all
records when none bears a transcript), mark the first maximiser of
`duration * (snr_estimate or 20.0)` as the sole primary. -/
def selectPrimary (samples : List AudioSampleInfo) : List AudioSampleInfo :=
  if samples.isEmpty then samples
  else samples.enum.map fun p => { p.2 with is_primary := p.1 == bestIndex samples }

/-- The record set after analysis, weighting and renormalisation,
before the primary re-selection. -/
def analyzeWeighted (fs : AudioFS) (paths : List String)
    (transcripts : Option (List (Option String))) : List AudioSampleInfo :=
  renormalizeWeights (applyDurationQualityWeights (analyzeStage1 fs paths transcripts))

/-- Model of `analyze_audio_samples`: per-sample analysis, weighting,
renormalisation, then primary re-selection. -/
def analyze_audio_samples (fs : AudioFS) (paths : List String)
    (transcripts : Option (List (Option String))) : List AudioSampleInfo :=
  selectPrimary (analyzeWeighted fs paths transcripts)

/-- Dot product of two flattened tensors, modelling
`(a.flatten() * b.flatten()).sum()`. -/
def vecDot (a b : List ℚ) : ℚ := (List.zipWith (fun x y => x * y) a b).sum

/-- Model of `torch.nn.functional.normalize(v, dim=-1)`:
`v / max(‖v‖₂, 1e-12)`.  Total; the zero vector maps to itself. -/
def l2normalize (v : List ℚ) : List ℚ :=
  let d := max (sqrtQ ((v.map (fun x => x * x)).sum)) (1 / 10 ^ 12)
  v.map fun x => x / d

/-- Elementwise mean of a list of equal-length vectors, modelling
`torch.stack(vs).mean(dim=0)` (the dimension is taken from the first
vector; `torch.stack` requires equal shapes). -/
def vecMean (vs : List (List ℚ)) : List ℚ :=
  match vs with
  | [] => []
  | v :: _ => (List.range v.length).map fun j =>
      ((vs.map fun u => u.getD j 0).sum) / (vs.length : ℚ)

/-- The `combined = combined + w * emb` accumulation loop starting from
`torch.zeros_like` of the first surviving embedding. -/
def weightedSum (ve : List (List ℚ)) (vw : List ℚ) : List ℚ :=
  (ve.zip vw).foldl
    (fun acc p => List.zipWith (fun x y => x + y) acc (p.1.map fun x => p.2 * x))
    (List.replicate (match ve with | [] => 0 | v :: _ => v.length) 0)

/-- Errors `combine_speaker_embeddings` can raise: the explicit
`ValueError` for empty input, and the `ZeroDivisionError` of the weight
renormalisation when the surviving weights sum to exactly zero. -/
inductive FuseError where
  | valueError
  | zeroDivisionError
  deriving Repr, DecidableEq

/-- The normalised embeddings (`normed` in the source). -/
def fuseNormed (embeddings : List (List ℚ)) : List (List ℚ) :=
  embeddings.map l2normalize

/-- The effective weight list: the supplied one, defaulting to all-ones
of the embeddings' length. -/
def fuseWeights (embeddings : List (List ℚ)) (weights : Option (List ℚ)) : List ℚ :=
  weights.getD (List.replicate embeddings.length 1)

/-- The L2-normalised centroid of the normalised embeddings. -/
def fuseCentroid (embeddings : List (List ℚ)) : List ℚ :=
  l2normalize (vecMean (fuseNormed embeddings))

/-- The outlier-rejection loop: keep a `(normed embedding, weight)` pair
unless the threshold is positive and its cosine similarity to the
centroid falls below the threshold. -/
def fuseSurvivors (embeddings : List (List ℚ)) (weights : Option (List ℚ))
    (outlier_threshold : ℚ) : List (List ℚ × ℚ) :=
  ((fuseNormed embeddings).zip (fuseWeights embeddings weights)).filter fun p =>
    !(decide (0 < outlier_threshold) && decide (vecDot p.1 (fuseCentroid embeddings) < outlier_threshold))

/-- The `valid_embeddings, valid_weights` pair after the all-excluded
fallback: the survivors, or the full normalised set with the original
weights when every sample was excluded. -/
def fuseSelected (embeddings : List (List ℚ)) (weights : Option (List ℚ))
    (outlier_threshold : ℚ) : List (List ℚ) × List ℚ :=
  if (fuseSurvivors embeddings weights outlier_threshold).isEmpty then
    (fuseNormed embeddings, fuseWeights embeddings weights)
  else ((fuseSurvivors embeddings weights outlier_threshold).map Prod.fst,
    (fuseSurvivors embeddings weights outlier_threshold).map Prod.snd)

/-- Model of `combine_speaker_embeddings`.  Control flow as in the
source: `ValueError` on empty input; single embedding short-circuits to
its normalisation; otherwise normalise, filter outliers against the
centroid, fall back to the full set when every sample was excluded,
renormalise the surviving weights (Python raises `ZeroDivisionError`
exactly when they are a nonempty list summing to zero), weighted-sum and
normalise. -/
def combine_speaker_embeddings (embeddings : List (List ℚ))
    (weights : Option (List ℚ)) (outlier_threshold : ℚ) : Except FuseError (List ℚ) :=
  match embeddings with
  | [] => .error .valueError
  | [e] => .ok (l2normalize e)
  | _ :: _ :: _ =>
    let ve := (fuseSelected embeddings weights outlier_threshold).1
    let vw := (fuseSelected embeddings weights outlier_threshold).2
    if vw.sum = 0 ∧ ¬vw.isEmpty then .error .zeroDivisionError
    else .ok (l2normalize (weightedSum ve (vw.map fun w => w / vw.sum)))

/-- Model of the collaborator's prompt item (`VoiceClonePromptItem`):
the opaque reference-code tensor is stood in for by an optional natural
tag. -/
structure PromptItem where
  ref_code : Option ℕ
  ref_spk_embedding : List ℚ
  x_vector_only_mode : Bool
  icl_mode : Bool
  ref_text : Option String
  deriving Repr, DecidableEq

/-- Model of `create_combined_voice_clone_prompt`.  The collaborator
`model.create_voice_clone_prompt(path, text, mode)[0]` is modelled by
the function argument `createPrompt` returning that first item.  The
primary fallback chain and the embedding-only clearing of
`ref_code`/`ref_text` follow the source line by line. -/
def create_combined_voice_clone_prompt
    (createPrompt : String → Option String → Bool → PromptItem)
    (sample_infos : List AudioSampleInfo) (x_vector_only_mode : Bool) :
    Except FuseError (List PromptItem) :=
  match sample_infos with
  | [] => .error .valueError
  | info0 :: _ =>
    let all_prompts := sample_infos.map fun info =>
      (info, createPrompt info.path info.transcript x_vector_only_mode)
    let embeddings := all_prompts.map fun p => p.2.ref_spk_embedding
    let weights := all_prompts.map fun p => p.1.weight
    match combine_speaker_embeddings embeddings (some weights) (7 / 10) with
    | .error e => .error e
    | .ok combined =>
      let primary1 : Option PromptItem :=
        if x_vector_only_mode then none
        else match all_prompts.find? fun p => p.1.is_primary && hasTranscript p.1 with
          | some p => some p.2
          | none => (all_prompts.find? fun p => hasTranscript p.1).map Prod.snd
      let primary2 : Option PromptItem :=
        match primary1 with
        | some p => some p
        | none => (all_prompts.find? fun p => p.1.is_primary).map Prod.snd
      let primary_prompt : PromptItem :=
        match primary2 with
        | some p => p
        | none => createPrompt info0.path info0.transcript x_vector_only_mode
      .ok [{ ref_code := if x_vector_only_mode then none else primary_prompt.ref_code
             ref_spk_embedding := combined
             x_vector_only_mode := x_vector_only_mode
             icl_mode := !x_vector_only_mode
             ref_text := if x_vector_only_mode then none else primary_prompt.ref_text }]

/-- Spec-side restatement of the SNR heuristic, following the sentences
of §4.1 of the specification: mono-average; 0 when the overall RMS is
near zero; 20 dB when fewer than 10 ~20 ms frames exist; 40 dB when the
10th-percentile noise floor is near zero; otherwise
`20·log10(rms/floor)` clamped to `[0, 60]`; 20 dB on any exception. -/
def snrSpec (fs : AudioFS) (path : String) : ℚ :=
  match fs path with
  | none => 20
  | some a =>
    let mono := a.data.map chanMean
    let rms := sqrtQ (npMean (mono.map fun x => x * x))
    if rms < 1 / 10 ^ 10 then 0
    else
      let frame_size := max 1 (pyInt ((a.sr : ℚ) / 50)).toNat
      let n_frames := mono.length / frame_size
      if n_frames < 10 then 20
      else
        let frame_rms := (List.range n_frames).map fun i =>
          sqrtQ (npMean (((mono.drop (i * frame_size)).take frame_size).map fun x => x * x))
        let noise_floor := npPercentile frame_rms 10
        if noise_floor < 1 / 10 ^ 10 then 40
        else min 60 (max 0 (20 * log10Q (rms / noise_floor)))

/-! ## Concrete inputs used by witnesses and counterexamples -/

/-- A filesystem on which every read raises. -/
def fsNone : AudioFS := fun _ => none

/-- A 5-frame unit-amplitude mono file at 1 Hz (too few frames for a
noise-floor estimate, so its SNR estimate is the 20 dB fallback). -/
def audioA : Audio := ⟨List.replicate 5 [1], 1, by norm_num⟩

/-- A 10-frame mono file at 1 Hz whose two leading silent frames put the
10th-percentile noise floor at zero, so its SNR estimate is 40 dB. -/
def audioB : Audio :=
  ⟨[[0], [0], [1], [1], [1], [1], [1], [1], [1], [1]], 1, by norm_num⟩

/-- A filesystem with one readable file. -/
def fsOne : AudioFS := fun _ => some audioA

/-- A filesystem with the two readable files `a` and `b`. -/
def fsW : AudioFS := fun p =>
  if p = "a" then some audioA else if p = "b" then some audioB else none

/-- A collaborator stub returning the same prompt item for every sample
(embedding `[1, 0]`). -/
def cpCex : String → Option String → Bool → PromptItem := fun _ _ m =>
  { ref_code := some 1, ref_spk_embedding := [1, 0], x_vector_only_mode := m,
    icl_mode := !m, ref_text := none }

/-- A collaborator stub returning embedding `[3, 4]` with reference
fields populated. -/
def cpW : String → Option String → Bool → PromptItem := fun _ _ m =>
  { ref_code := some 1, ref_spk_embedding := [3, 4], x_vector_only_mode := m,
    icl_mode := !m, ref_text := some "t" }

/-! ## Basic sign and length lemmas -/

theorem sqrtQ_nonneg (q : ℚ) : 0 ≤ sqrtQ q := by
  simp only [sqrtQ]
  split
  · exact le_refl 0
  · split
    · exact div_nonneg (Nat.cast_nonneg _) (Nat.cast_nonneg _)
    · exact div_nonneg (Nat.cast_nonneg _) (Nat.cast_nonneg _)

theorem l2normalize_denom_pos (v : List ℚ) :
    0 < max (sqrtQ ((v.map fun x => x * x).sum)) (1 / 10 ^ 12 : ℚ) :=
  lt_max_of_lt_right (by norm_num)

theorem get_audio_duration_nonneg (fs : AudioFS) (path : String) :
    0 ≤ get_audio_duration fs path := by
  unfold get_audio_duration
  cases h : fs path with
  | none => exact le_refl 0
  | some a =>
    exact div_nonneg (Nat.cast_nonneg _) (le_of_lt (by exact_mod_cast a.sr_pos))

theorem estimate_snr_nonneg (fs : AudioFS) (path : String) :
    0 ≤ estimate_snr fs path := by
  unfold estimate_snr
  cases h : fs path with
  | none => norm_num
  | some a =>
    dsimp only
    split
    · norm_num
    · split
      · norm_num
      · split
        · norm_num
        · split
          · norm_num
          · exact le_max_left 0 _

theorem pyOr20_nonneg {o : Option ℚ} (h : ∀ x ∈ o, 0 ≤ x) : 0 ≤ pyOr20 o := by
  cases o with
  | none => norm_num [pyOr20]
  | some x =>
    simp only [pyOr20]
    split
    · norm_num
    · exact h x rfl

/-! ## Index-wise description of the analysis pipeline stages -/

theorem length_applyDurationQualityWeights (l : List AudioSampleInfo) :
    (applyDurationQualityWeights l).length = l.length := by
  unfold applyDurationQualityWeights
  split <;> simp

theorem length_renormalizeWeights (l : List AudioSampleInfo) :
    (renormalizeWeights l).length = l.length := by
  unfold renormalizeWeights
  split <;> simp

theorem length_selectPrimary (l : List AudioSampleInfo) :
    (selectPrimary l).length = l.length := by
  unfold selectPrimary
  split <;> simp

theorem length_paddedTranscripts_ge (paths : List String)
    (ts : Option (List (Option String))) :
    paths.length ≤ (paddedTranscripts paths ts).length := by
  simp only [paddedTranscripts]
  split
  · simp only [List.length_append, List.length_replicate]
    omega
  · omega

theorem length_analyzeStage1 (fs : AudioFS) (paths : List String)
    (ts : Option (List (Option String))) :
    (analyzeStage1 fs paths ts).length = paths.length := by
  unfold analyzeStage1
  simp [Nat.min_eq_left (length_paddedTranscripts_ge paths ts)]

theorem length_analyzeWeighted (fs : AudioFS) (paths : List String)
    (ts : Option (List (Option String))) :
    (analyzeWeighted fs paths ts).length = paths.length := by
  unfold analyzeWeighted
  rw [length_renormalizeWeights, length_applyDurationQualityWeights, length_analyzeStage1]

theorem length_analyze (fs : AudioFS) (paths : List String)
    (ts : Option (List (Option String))) :
    (analyze_audio_samples fs paths ts).length = paths.length := by
  unfold analyze_audio_samples
  rw [length_selectPrimary, length_analyzeWeighted]

theorem applyDurationQualityWeights_getElem? (l : List AudioSampleInfo) (i : ℕ) :
    (applyDurationQualityWeights l)[i]? = (l[i]?).map fun s =>
      if 0 < totalDuration l then
        { s with weight := 7 / 10 * (s.duration / totalDuration l)
            + 3 / 10 * min 1 (pyOr20 s.snr_estimate / 40) }
      else s := by
  unfold applyDurationQualityWeights
  split
  · rw [List.getElem?_map]
  · cases l[i]? <;> rfl

theorem renormalizeWeights_getElem? (l : List AudioSampleInfo) (i : ℕ) :
    (renormalizeWeights l)[i]? = (l[i]?).map fun s =>
      if 0 < totalWeight l then { s with weight := s.weight / totalWeight l } else s := by
  unfold renormalizeWeights
  split
  · rw [List.getElem?_map]
  · cases l[i]? <;> rfl

theorem selectPrimary_getElem? (l : List AudioSampleInfo) (i : ℕ) :
    (selectPrimary l)[i]? = (l[i]?).map fun s =>
      { s with is_primary := i == bestIndex l } := by
  unfold selectPrimary
  split
  · next h =>
    rw [List.isEmpty_iff] at h
    subst h
    simp
  · rw [List.getElem?_map, List.getElem?_enum, Option.map_map]
    rfl

theorem analyzeStage1_getElem? (fs : AudioFS) (paths : List String)
    (ts : Option (List (Option String))) (i : ℕ) (hi : i < paths.length) :
    (analyzeStage1 fs paths ts)[i]? = some
      { path := paths.getD i ""
        duration := get_audio_duration fs (paths.getD i "")
        transcript := (paddedTranscripts paths ts).getD i none
        snr_estimate := some (estimate_snr fs (paths.getD i ""))
        is_primary := i == 0
        weight := 1 } := by
  have hz : (paths.zip (paddedTranscripts paths ts))[i]? =
      some (paths.getD i "", (paddedTranscripts paths ts).getD i none) := by
    have h2 : i < (paddedTranscripts paths ts).length :=
      lt_of_lt_of_le hi (length_paddedTranscripts_ge paths ts)
    rw [List.getD_eq_getElem?_getD, List.getD_eq_getElem?_getD]
    rw [List.getElem?_eq_getElem hi, List.getElem?_eq_getElem h2]
    rw [List.getElem?_eq_getElem (by simpa [Nat.lt_min] using And.intro hi h2 :
      i < (paths.zip (paddedTranscripts paths ts)).length)]
    simp [List.getElem_zip]
  unfold analyzeStage1
  rw [List.getElem?_map, List.getElem?_enum, hz]
  rfl

/-! ## Sum helpers -/

theorem sum_map_div (l : List AudioSampleInfo) (f : AudioSampleInfo → ℚ) (c : ℚ) :
    (l.map fun s => f s / c).sum = (l.map f).sum / c := by
  induction l with
  | nil => simp
  | cons a t ih => simp [ih, add_div]

/-! ## Properties of the `max(..., key=...)` model -/

theorem pyMaxBy_mem (key : ℕ → ℚ) (c : ℕ) (cs : List ℕ) :
    pyMaxBy key c cs ∈ c :: cs := by
  induction cs generalizing c with
  | nil => simp [pyMaxBy]
  | cons d ds ih =>
    have hstep : pyMaxBy key c (d :: ds) = pyMaxBy key (if key c < key d then d else c) ds := rfl
    rw [hstep]
    rcases List.mem_cons.mp (ih (if key c < key d then d else c)) with h | h
    · rw [h]
      split <;> simp
    · simp [List.mem_cons.mpr, h]

theorem pyMaxBy_le (key : ℕ → ℚ) (c : ℕ) (cs : List ℕ) :
    ∀ i ∈ c :: cs, key i ≤ key (pyMaxBy key c cs) := by
  induction cs generalizing c with
  | nil =>
    intro i hi
    rcases List.mem_cons.mp hi with rfl | h
    · exact le_refl _
    · cases h
  | cons d ds ih =>
    intro i hi
    have hstep : pyMaxBy key c (d :: ds) = pyMaxBy key (if key c < key d then d else c) ds := rfl
    rw [hstep]
    have hc : key c ≤ key (if key c < key d then d else c) := by
      split
      · next h => exact le_of_lt h
      · exact le_refl _
    have hd : key d ≤ key (if key c < key d then d else c) := by
      split
      · exact le_refl _
      · next h => exact le_of_not_lt h
    have htop : key (if key c < key d then d else c)
        ≤ key (pyMaxBy key (if key c < key d then d else c) ds) :=
      ih _ _ (List.mem_cons_self _ _)
    rcases List.mem_cons.mp hi with rfl | hi2
    · exact le_trans hc htop
    · rcases List.mem_cons.mp hi2 with rfl | hi3
      · exact le_trans hd htop
      · exact ih _ i (List.mem_cons_of_mem _ hi3)

/-! ## Characterisations of the candidate index lists -/

theorem mem_transcriptIndices {l : List AudioSampleInfo} {i : ℕ} :
    i ∈ transcriptIndices l ↔
      i < l.length ∧ hasTranscript (l.getD i dummySample) = true := by
  unfold transcriptIndices
  simp only [List.mem_map, List.mem_filter]
  constructor
  · rintro ⟨p, ⟨hp, ht⟩, rfl⟩
    have hg := List.mem_enum_iff_getElem?.mp hp
    have hlen : p.1 < l.length := by
      by_contra hge
      rw [List.getElem?_eq_none (le_of_not_lt hge)] at hg
      cases hg
    refine ⟨hlen, ?_⟩
    rw [List.getD_eq_getElem?_getD, hg]
    exact ht
  · rintro ⟨hlen, ht⟩
    refine ⟨(i, l.getD i dummySample), ⟨?_, ht⟩, rfl⟩
    rw [List.mem_enum_iff_getElem?]
    rw [List.getD_eq_getElem?_getD, List.getElem?_eq_getElem hlen]
    rfl

theorem transcriptIndices_eq_nil_iff {l : List AudioSampleInfo} :
    transcriptIndices l = [] ↔
      ∀ i, i < l.length → hasTranscript (l.getD i dummySample) = false := by
  rw [List.eq_nil_iff_forall_not_mem]
  constructor
  · intro h i hi
    by_contra hne
    exact h i (mem_transcriptIndices.mpr ⟨hi, by simpa using hne⟩)
  · intro h i hmem
    rcases mem_transcriptIndices.mp hmem with ⟨hi, ht⟩
    rw [h i hi] at ht
    cases ht

theorem mem_primaryCandidates {l : List AudioSampleInfo} {i : ℕ} :
    i ∈ primaryCandidates l ↔
      i < l.length ∧ (transcriptIndices l ≠ [] →
        hasTranscript (l.getD i dummySample) = true) := by
  unfold primaryCandidates
  split
  · next h =>
    rw [List.isEmpty_iff] at h
    simp only [List.mem_range, h]
    constructor
    · intro hi
      exact ⟨hi, fun hne => absurd rfl hne⟩
    · intro hi
      exact hi.1
  · next h =>
    rw [List.isEmpty_iff] at h
    constructor
    · intro hmem
      rcases mem_transcriptIndices.mp hmem with ⟨hi, ht⟩
      exact ⟨hi, fun _ => ht⟩
    · rintro ⟨hi, ht⟩
      exact mem_transcriptIndices.mpr ⟨hi, ht h⟩

theorem primaryCandidates_ne_nil {l : List AudioSampleInfo} (h : l ≠ []) :
    primaryCandidates l ≠ [] := by
  unfold primaryCandidates
  split
  · next he =>
    simp only [ne_eq, List.range_eq_nil]
    intro hlen
    exact h (List.length_eq_zero.mp hlen)
  · next he =>
    rw [List.isEmpty_iff] at he
    exact he

theorem bestIndex_mem {l : List AudioSampleInfo} (h : l ≠ []) :
    bestIndex l ∈ primaryCandidates l := by
  unfold bestIndex
  split
  · next hc => exact absurd hc (primaryCandidates_ne_nil h)
  · next c cs hc =>
    rw [hc]
    exact pyMaxBy_mem _ c cs

theorem bestIndex_le {l : List AudioSampleInfo} (h : l ≠ []) :
    ∀ i ∈ primaryCandidates l,
      primaryKey (l.getD i dummySample) ≤ primaryKey (l.getD (bestIndex l) dummySample) := by
  intro i hi
  unfold bestIndex
  split
  · next hc => exact absurd hc (primaryCandidates_ne_nil h)
  · next c cs hc =>
    rw [hc] at hi
    exact pyMaxBy_le (fun j => primaryKey (l.getD j dummySample)) c cs i hi

/-! ## The marking loop makes exactly one record primary -/

theorem countP_markPrimary_enumFrom (l : List AudioSampleInfo) (n b : ℕ) :
    ((List.enumFrom n l).map fun p => { p.2 with is_primary := p.1 == b }).countP
        (·.is_primary)
      = if n ≤ b ∧ b < n + l.length then 1 else 0 := by
  induction l generalizing n with
  | nil =>
    simp only [List.enumFrom, List.map_nil, List.countP_nil, List.length_nil]
    split_ifs <;> omega
  | cons a t ih =>
    rw [List.enumFrom_cons, List.map_cons, List.countP_cons, ih (n + 1)]
    dsimp only
    simp only [beq_iff_eq, List.length_cons]
    split_ifs <;> omega

theorem countP_selectPrimary (l : List AudioSampleInfo) (h : l ≠ []) :
    (selectPrimary l).countP (·.is_primary) = 1 := by
  have hb : bestIndex l < l.length := (mem_primaryCandidates.mp (bestIndex_mem h)).1
  unfold selectPrimary
  rw [if_neg (by simpa [List.isEmpty_iff] using h)]
  show ((List.enumFrom 0 l).map fun p => { p.2 with is_primary := p.1 == bestIndex l }).countP
      (·.is_primary) = 1
  rw [countP_markPrimary_enumFrom]
  rw [if_pos ⟨Nat.zero_le _, by omega⟩]

/-! ## Fusion lemmas -/

theorem fuseSurvivors_snd_mem {embs : List (List ℚ)} {weights : Option (List ℚ)}
    {t : ℚ} {p : List ℚ × ℚ} (hp : p ∈ fuseSurvivors embs weights t) :
    p.2 ∈ fuseWeights embs weights := by
  unfold fuseSurvivors at hp
  have h1 := (List.mem_filter.mp hp).1
  rcases p with ⟨a, b⟩
  exact (List.of_mem_zip h1).2

theorem fuseSelected_sum_pos (embs : List (List ℚ)) (weights : Option (List ℚ))
    (t : ℚ) (hne : fuseWeights embs weights ≠ [])
    (hpos : ∀ w ∈ fuseWeights embs weights, 0 < w) :
    0 < (fuseSelected embs weights t).2.sum := by
  unfold fuseSelected
  split
  · exact List.sum_pos _ hpos hne
  · next hv =>
    have hnil : fuseSurvivors embs weights t ≠ [] := by
      intro hc
      rw [hc] at hv
      exact hv rfl
    apply List.sum_pos
    · intro w hw
      rcases List.mem_map.mp hw with ⟨p, hpmem, rfl⟩
      exact hpos p.2 (fuseSurvivors_snd_mem hpmem)
    · simpa using hnil

theorem combine_ok_of_posWeights (embs : List (List ℚ)) (weights : Option (List ℚ))
    (t : ℚ) (h2 : 2 ≤ embs.length)
    (hne : fuseWeights embs weights ≠ [])
    (hpos : ∀ w ∈ fuseWeights embs weights, 0 < w) :
    ∃ v, combine_speaker_embeddings embs weights t = .ok v := by
  rcases embs with _ | ⟨e1, _ | ⟨e2, rest⟩⟩
  · simp at h2
  · simp at h2
  · rw [combine_speaker_embeddings]
    have hsum := fuseSelected_sum_pos (e1 :: e2 :: rest) weights t hne hpos
    rw [if_neg (fun hc => (ne_of_gt hsum) hc.1)]
    exact ⟨_, rfl⟩

/-- Claim C5 (amended): when the threshold is positive and every
normalised embedding's cosine similarity to the centroid falls below it,
the rejection is aborted and the full unfiltered set with the original
weights is used; provided those weights sum to a nonzero value (as they
do when omitted), fusion returns the L2-normalisation of the weighted
mean without failing. -/
theorem combine_all_excluded (embs : List (List ℚ)) (weights : Option (List ℚ))
    (t : ℚ) (h2 : 2 ≤ embs.length) (ht : 0 < t)
    (hall : ∀ p ∈ (fuseNormed embs).zip (fuseWeights embs weights),
      vecDot p.1 (fuseCentroid embs) < t)
    (hsum : (fuseWeights embs weights).sum ≠ 0) :
    combine_speaker_embeddings embs weights t
      = .ok (l2normalize (weightedSum (fuseNormed embs)
          ((fuseWeights embs weights).map fun w =>
            w / (fuseWeights embs weights).sum))) := by
  have hsurv : fuseSurvivors embs weights t = [] := by
    unfold fuseSurvivors
    rw [List.filter_eq_nil_iff]
    intro p hp
    simp only [Bool.not_eq_true', Bool.not_eq_false]
    rw [Bool.and_eq_true]
    exact ⟨decide_eq_true ht, decide_eq_true (hall p hp)⟩
  have hsel : fuseSelected embs weights t = (fuseNormed embs, fuseWeights embs weights) := by
    unfold fuseSelected
    rw [hsurv]
    rfl
  rcases embs with _ | ⟨e1, _ | ⟨e2, rest⟩⟩
  · simp at h2
  · simp at h2
  · rw [combine_speaker_embeddings, hsel]
    rw [if_neg (fun hc => hsum hc.1)]

/-- Claim C1 (amended): `combine_speaker_embeddings` fails with the
invalid-input `ValueError` exactly when the embeddings sequence is
empty; every non-empty sequence with omitted weights returns a vector
without raising.  (With explicit weights whose surviving sum is zero the
code instead raises `ZeroDivisionError` — see the counterexample.) -/
theorem combine_valueError_iff (embs : List (List ℚ)) (ws : Option (List ℚ)) (t : ℚ) :
    (combine_speaker_embeddings embs ws t = .error .valueError ↔ embs = [])
    ∧ (embs ≠ [] → ∃ v, combine_speaker_embeddings embs none t = .ok v) := by
  constructor
  · rcases embs with _ | ⟨e1, _ | ⟨e2, rest⟩⟩
    · simp [combine_speaker_embeddings]
    · simp [combine_speaker_embeddings]
    · rw [combine_speaker_embeddings]
      constructor
      · intro h
        by_cases hC : (fuseSelected (e1 :: e2 :: rest) ws t).2.sum = 0
            ∧ ¬(fuseSelected (e1 :: e2 :: rest) ws t).2.isEmpty
        · rw [if_pos hC] at h
          simp at h
        · rw [if_neg hC] at h
          simp at h
      · intro h
        cases h
  · intro hne
    rcases embs with _ | ⟨e1, _ | ⟨e2, rest⟩⟩
    · exact absurd rfl hne
    · exact ⟨l2normalize e1, rfl⟩
    · apply combine_ok_of_posWeights
      · simp
      · simp [fuseWeights]
      · intro w hw
        simp only [fuseWeights, Option.getD_none] at hw
        rw [List.eq_of_mem_replicate hw]
        norm_num

/-! ## The SNR heuristic agrees with its specification restatement -/

theorem clamp_comm (x : ℚ) : max 0 (min 60 x) = min 60 (max 0 x) := by
  rcases le_total x 0 with h | h <;> rcases le_total x 60 with h2 | h2 <;>
    simp [max_def, min_def] <;> split_ifs <;> linarith

/-- Claim C9: the implemented SNR heuristic agrees, on every filesystem
and path, with the specification's clause-by-clause restatement
`snrSpec` (mono-averaging, the near-zero-RMS 0, the <10-frame 20 dB
fallback, the near-zero noise-floor 40 dB, the clamped
`20·log10(rms/floor)`, and 20 dB on any exception). -/
theorem estimate_snr_eq_snrSpec (fs : AudioFS) (path : String) :
    estimate_snr fs path = snrSpec fs path := by
  unfold estimate_snr snrSpec
  cases hfs : fs path with
  | none => rfl
  | some a =>
    dsimp only
    by_cases hd : a.data.length = 0
    · rw [if_pos (Or.inl hd)]
      have hmono : a.data.map chanMean = [] := by
        rw [List.map_eq_nil_iff]
        exact List.length_eq_zero.mp hd
      rw [hmono]
      norm_num [npMean, sqrtQ]
    · rw [if_neg (not_or.mpr ⟨hd, not_le.mpr a.sr_pos⟩)]
      have harg : ((a.sr : ℚ) * (2 / 100)) = (a.sr : ℚ) / 50 := by ring
      simp only [harg, clamp_comm]

/-! ## Weight bookkeeping through the pipeline -/

theorem sum_map_mul_const (l : List AudioSampleInfo) (f : AudioSampleInfo → ℚ) (c : ℚ) :
    (l.map fun s => c * f s).sum = c * (l.map f).sum := by
  induction l with
  | nil => simp
  | cons a t ih => simp [ih, mul_add]

theorem analyzeStage1_weight_eq_one (fs : AudioFS) (paths : List String)
    (ts : Option (List (Option String))) :
    ∀ s ∈ analyzeStage1 fs paths ts, s.weight = 1 := by
  intro s hs
  rcases List.mem_map.mp hs with ⟨p, _, rfl⟩
  rfl

theorem analyzeStage1_duration_nonneg (fs : AudioFS) (paths : List String)
    (ts : Option (List (Option String))) :
    ∀ s ∈ analyzeStage1 fs paths ts, 0 ≤ s.duration := by
  intro s hs
  rcases List.mem_map.mp hs with ⟨p, _, rfl⟩
  exact get_audio_duration_nonneg fs p.2.1

theorem analyzeStage1_snr_nonneg (fs : AudioFS) (paths : List String)
    (ts : Option (List (Option String))) :
    ∀ s ∈ analyzeStage1 fs paths ts, ∀ x ∈ s.snr_estimate, 0 ≤ x := by
  intro s hs x hx
  rcases List.mem_map.mp hs with ⟨p, _, rfl⟩
  cases hx
  exact estimate_snr_nonneg fs p.2.1

theorem totalWeight_analyzeStage1 (fs : AudioFS) (paths : List String)
    (ts : Option (List (Option String))) :
    totalWeight (analyzeStage1 fs paths ts) = (paths.length : ℚ) := by
  unfold totalWeight
  have hrep : (analyzeStage1 fs paths ts).map (·.weight)
      = List.replicate (analyzeStage1 fs paths ts).length 1 := by
    rw [List.eq_replicate_iff]
    constructor
    · simp
    · intro b hb
      rcases List.mem_map.mp hb with ⟨s, hs, rfl⟩
      exact analyzeStage1_weight_eq_one fs paths ts s hs
  rw [hrep, List.sum_replicate, length_analyzeStage1]
  simp

theorem mem_selectPrimary_weight {l : List AudioSampleInfo} {s : AudioSampleInfo}
    (hs : s ∈ selectPrimary l) : ∃ s0 ∈ l, s.weight = s0.weight := by
  unfold selectPrimary at hs
  split at hs
  · exact ⟨s, hs, rfl⟩
  · rcases List.mem_map.mp hs with ⟨p, hp, rfl⟩
    refine ⟨p.2, ?_, rfl⟩
    have hmem : p.2 ∈ l.enum.map Prod.snd := List.mem_map_of_mem Prod.snd hp
    rwa [List.enum_map_snd] at hmem

theorem totalWeight_map_weight (l : List AudioSampleInfo) (f : AudioSampleInfo → ℚ) :
    totalWeight (l.map fun s => { s with weight := f s }) = (l.map f).sum := by
  unfold totalWeight
  rw [List.map_map]
  rfl

theorem sum_weight_map_mark (L : List (ℕ × AudioSampleInfo)) (b : ℕ) :
    ((L.map fun p => { p.2 with is_primary := p.1 == b }).map fun s => s.weight).sum
      = (L.map fun p => p.2.weight).sum := by
  induction L with
  | nil => rfl
  | cons a t ih => simp only [List.map_cons, List.sum_cons, ih]

theorem sum_enumFrom_weight (l : List AudioSampleInfo) (n : ℕ) :
    ((List.enumFrom n l).map fun p => p.2.weight).sum = totalWeight l := by
  induction l generalizing n with
  | nil => rfl
  | cons a t ih =>
    simp only [List.enumFrom_cons, List.map_cons, List.sum_cons, ih]
    simp [totalWeight]

theorem totalWeight_selectPrimary (l : List AudioSampleInfo) :
    totalWeight (selectPrimary l) = totalWeight l := by
  unfold selectPrimary
  split
  · rfl
  · calc totalWeight (l.enum.map fun p : ℕ × AudioSampleInfo =>
            { p.2 with is_primary := p.1 == bestIndex l })
        = ((l.enum.map fun p : ℕ × AudioSampleInfo =>
            { p.2 with is_primary := p.1 == bestIndex l }).map
            fun s : AudioSampleInfo => s.weight).sum := rfl
      _ = (l.enum.map fun p : ℕ × AudioSampleInfo => p.2.weight).sum :=
          sum_weight_map_mark l.enum (bestIndex l)
      _ = totalWeight l := sum_enumFrom_weight l 0

theorem applyDurationQualityWeights_weight_nonneg {l : List AudioSampleInfo}
    (hw0 : ∀ s ∈ l, 0 ≤ s.weight)
    (hdur : ∀ s ∈ l, 0 ≤ s.duration)
    (hsnr : ∀ s ∈ l, ∀ x ∈ s.snr_estimate, 0 ≤ x) :
    ∀ s ∈ applyDurationQualityWeights l, 0 ≤ s.weight := by
  intro s hs
  unfold applyDurationQualityWeights at hs
  split at hs
  · next hD =>
    rcases List.mem_map.mp hs with ⟨s0, hs0, rfl⟩
    have h1 : 0 ≤ s0.duration / totalDuration l :=
      div_nonneg (hdur s0 hs0) (le_of_lt hD)
    have h2 : 0 ≤ min 1 (pyOr20 s0.snr_estimate / 40) := by
      apply le_min
      · norm_num
      · exact div_nonneg (pyOr20_nonneg (hsnr s0 hs0)) (by norm_num)
    show 0 ≤ 7 / 10 * (s0.duration / totalDuration l)
        + 3 / 10 * min 1 (pyOr20 s0.snr_estimate / 40)
    positivity
  · exact hw0 s hs

theorem totalWeight_applyDurationQualityWeights_pos {l : List AudioSampleInfo}
    (hD : 0 < totalDuration l)
    (hsnr : ∀ s ∈ l, ∀ x ∈ s.snr_estimate, 0 ≤ x) :
    0 < totalWeight (applyDurationQualityWeights l) := by
  unfold applyDurationQualityWeights
  rw [if_pos hD, totalWeight_map_weight]
  have hlow : (l.map fun s => 7 / 10 * (s.duration / totalDuration l)).sum
      ≤ (l.map fun s => 7 / 10 * (s.duration / totalDuration l)
          + 3 / 10 * min 1 (pyOr20 s.snr_estimate / 40)).sum := by
    apply List.sum_le_sum
    intro s hsmem
    have h2 : 0 ≤ min 1 (pyOr20 s.snr_estimate / 40) := by
      apply le_min
      · norm_num
      · exact div_nonneg (pyOr20_nonneg (hsnr s hsmem)) (by norm_num)
    linarith
  have hlow2 : (l.map fun s => 7 / 10 * (s.duration / totalDuration l)).sum = 7 / 10 := by
    rw [sum_map_mul_const, sum_map_div]
    show 7 / 10 * (totalDuration l / totalDuration l) = 7 / 10
    rw [div_self (ne_of_gt hD)]
    norm_num
  linarith

theorem totalWeight_renormalizeWeights {l : List AudioSampleInfo}
    (h : 0 < totalWeight l) : totalWeight (renormalizeWeights l) = 1 := by
  unfold renormalizeWeights
  rw [if_pos h, totalWeight_map_weight, sum_map_div]
  show totalWeight l / totalWeight l = 1
  exact div_self (ne_of_gt h)

theorem renormalizeWeights_weight_nonneg {l : List AudioSampleInfo}
    (hnn : ∀ s ∈ l, 0 ≤ s.weight) :
    ∀ s ∈ renormalizeWeights l, 0 ≤ s.weight := by
  intro s hs
  unfold renormalizeWeights at hs
  split at hs
  · next h =>
    rcases List.mem_map.mp hs with ⟨s0, hs0, rfl⟩
    exact div_nonneg (hnn s0 hs0) (le_of_lt h)
  · exact hnn s hs

/-! ## Claim C3 -/

theorem paddedTranscripts_getD_none {paths : List String} {tl : List (Option String)}
    {i : ℕ} (hle : tl.length ≤ i) (hi : i < paths.length) :
    (paddedTranscripts paths (some tl)).getD i none = none := by
  unfold paddedTranscripts
  rw [Option.getD_some]
  rw [if_pos (lt_of_le_of_lt hle hi)]
  rw [List.getD_eq_getElem?_getD, List.getElem?_append_right hle,
    List.getElem?_replicate, if_pos (by omega)]
  rfl

theorem analyze_getElem?_core (fs : AudioFS) (paths : List String)
    (ts : Option (List (Option String))) (i : ℕ) (hi : i < paths.length) :
    ((analyze_audio_samples fs paths ts)[i]?).map
        (fun s => (s.duration, s.transcript, s.snr_estimate))
      = some (get_audio_duration fs (paths.getD i ""),
          (paddedTranscripts paths ts).getD i none,
          some (estimate_snr fs (paths.getD i ""))) := by
  unfold analyze_audio_samples analyzeWeighted
  rw [selectPrimary_getElem?, renormalizeWeights_getElem?,
    applyDurationQualityWeights_getElem?, analyzeStage1_getElem? fs paths ts i hi]
  simp only [Option.map_some']
  split <;> split <;> rfl

theorem getElem?_eq_some_getD {l : List AudioSampleInfo} {i : ℕ} (hi : i < l.length) :
    l[i]? = some (l.getD i dummySample) := by
  rw [List.getD_eq_getElem?_getD, List.getElem?_eq_getElem hi]
  rfl

/-- Claim C3: `analyzeSamples` is total (the model is a total function
whose output has one record per input path); a transcripts sequence
shorter than the paths sequence is padded with `None`; and a record for
an unreadable path gets `duration = 0` and the 20 dB fallback
`snr_estimate`. -/
theorem analyzeSamples_never_raises (fs : AudioFS) (paths : List String)
    (tl : List (Option String)) :
    (analyze_audio_samples fs paths (some tl)).length = paths.length
    ∧ (∀ i, tl.length ≤ i → i < paths.length →
        ((analyze_audio_samples fs paths (some tl)).getD i dummySample).transcript = none)
    ∧ (∀ i, i < paths.length → fs (paths.getD i "") = none →
        ((analyze_audio_samples fs paths (some tl)).getD i dummySample).duration = 0
        ∧ ((analyze_audio_samples fs paths (some tl)).getD i dummySample).snr_estimate
            = some 20) := by
  refine ⟨length_analyze fs paths (some tl), ?_, ?_⟩
  · intro i hle hi
    have hcore := analyze_getElem?_core fs paths (some tl) i hi
    rw [getElem?_eq_some_getD (by rw [length_analyze]; exact hi)] at hcore
    rw [Option.map_some'] at hcore
    have := (Prod.mk.injEq _ _ _ _).mp (Option.some.inj hcore)
    rw [(Prod.mk.injEq _ _ _ _).mp this.2 |>.1]
    exact paddedTranscripts_getD_none hle hi
  · intro i hi hfs
    have hcore := analyze_getElem?_core fs paths (some tl) i hi
    rw [getElem?_eq_some_getD (by rw [length_analyze]; exact hi)] at hcore
    rw [Option.map_some'] at hcore
    have hinj := (Prod.mk.injEq _ _ _ _).mp (Option.some.inj hcore)
    have hdur : get_audio_duration fs (paths.getD i "") = 0 := by
      unfold get_audio_duration
      rw [hfs]
    have hsnr : estimate_snr fs (paths.getD i "") = 20 := by
      unfold estimate_snr
      rw [hfs]
    constructor
    · rw [hinj.1, hdur]
    · rw [(Prod.mk.injEq _ _ _ _).mp hinj.2 |>.2, hsnr]

/-! ## Claim C2 (amended) -/

/-- Claim C2 (amended): when the total measured duration is zero, the
weighting loop is skipped, so every weight keeps its dataclass default
`1.0`; the renormalisation then divides by the record count, leaving
every weight at `1/n` — not at `0` as the specification states. -/
theorem analyze_uniform_weights_of_zero_duration (fs : AudioFS) (paths : List String)
    (ts : Option (List (Option String))) (hne : paths ≠ [])
    (h0 : totalDuration (analyzeStage1 fs paths ts) = 0) :
    ∀ s ∈ analyze_audio_samples fs paths ts, s.weight = 1 / (paths.length : ℚ) := by
  intro s hs
  unfold analyze_audio_samples at hs
  rcases mem_selectPrimary_weight hs with ⟨s1, hs1, hw⟩
  unfold analyzeWeighted at hs1
  rw [show applyDurationQualityWeights (analyzeStage1 fs paths ts)
      = analyzeStage1 fs paths ts from by
    unfold applyDurationQualityWeights
    rw [if_neg (by rw [h0]; exact lt_irrefl 0)]] at hs1
  have hTW : totalWeight (analyzeStage1 fs paths ts) = (paths.length : ℚ) :=
    totalWeight_analyzeStage1 fs paths ts
  have hpos : 0 < totalWeight (analyzeStage1 fs paths ts) := by
    rw [hTW]
    exact_mod_cast List.length_pos.mpr hne
  unfold renormalizeWeights at hs1
  rw [if_pos hpos] at hs1
  rcases List.mem_map.mp hs1 with ⟨s0, hs0, rfl⟩
  rw [hw]
  show s0.weight / totalWeight (analyzeStage1 fs paths ts) = 1 / (paths.length : ℚ)
  rw [analyzeStage1_weight_eq_one fs paths ts s0 hs0, hTW]

/-! ## Claim C4 -/

/-- Claim C4: for every sample set with positive total duration, the
weights written by the weighting/renormalisation phases are each
nonnegative and sum to `1` (hence to `1.0` within `1e-6`). -/
theorem analyze_weights_nonneg_sum_one (fs : AudioFS) (paths : List String)
    (ts : Option (List (Option String)))
    (hD : 0 < totalDuration (analyzeStage1 fs paths ts)) :
    (∀ s ∈ analyze_audio_samples fs paths ts, 0 ≤ s.weight)
    ∧ |totalWeight (analyze_audio_samples fs paths ts) - 1| ≤ 1 / 10 ^ 6 := by
  have hw0 := analyzeStage1_weight_eq_one fs paths ts
  have hdur := analyzeStage1_duration_nonneg fs paths ts
  have hsnr := analyzeStage1_snr_nonneg fs paths ts
  have happly := applyDurationQualityWeights_weight_nonneg
    (fun s hs => by rw [hw0 s hs]; norm_num) hdur hsnr
  have hTpos := totalWeight_applyDurationQualityWeights_pos hD hsnr
  constructor
  · intro s hs
    unfold analyze_audio_samples at hs
    rcases mem_selectPrimary_weight hs with ⟨s1, hs1, hw⟩
    rw [hw]
    unfold analyzeWeighted at hs1
    exact renormalizeWeights_weight_nonneg happly s1 hs1
  · unfold analyze_audio_samples analyzeWeighted
    rw [totalWeight_selectPrimary, totalWeight_renormalizeWeights hTpos]
    norm_num

/-! ## Claim C10 -/

/-- Claim C10: a `0.0` SNR estimate is falsy in Python, so
`snr_estimate or 20.0` yields the 20 dB fallback: the quality weight
becomes `min(1, 20/40) = 1/2` and the primary-selection key becomes
`duration * 20`. -/
theorem snr_zero_treated_as_twenty (samples : List AudioSampleInfo) (i : ℕ)
    (hi : i < samples.length) (hD : 0 < totalDuration samples)
    (h0 : (samples.getD i dummySample).snr_estimate = some 0) :
    ((applyDurationQualityWeights samples).getD i dummySample).weight
      = 7 / 10 * ((samples.getD i dummySample).duration / totalDuration samples)
        + 3 / 10 * (1 / 2)
    ∧ primaryKey (samples.getD i dummySample)
        = (samples.getD i dummySample).duration * 20 := by
  have hp20 : pyOr20 (samples.getD i dummySample).snr_estimate = 20 := by
    rw [h0]
    simp [pyOr20]
  constructor
  · rw [List.getD_eq_getElem?_getD, applyDurationQualityWeights_getElem?,
      getElem?_eq_some_getD hi, Option.map_some', if_pos hD]
    show 7 / 10 * ((samples.getD i dummySample).duration / totalDuration samples)
        + 3 / 10 * min 1 (pyOr20 (samples.getD i dummySample).snr_estimate / 40)
      = _
    rw [hp20]
    norm_num
  · unfold primaryKey
    rw [hp20]

/-! ## Claim C6 -/

theorem selectPrimary_getD (l : List AudioSampleInfo) (i : ℕ) (hi : i < l.length) :
    (selectPrimary l).getD i dummySample
      = { l.getD i dummySample with is_primary := i == bestIndex l } := by
  rw [List.getD_eq_getElem?_getD, selectPrimary_getElem?, getElem?_eq_some_getD hi,
    Option.map_some']
  rfl

theorem hasTranscript_selectPrimary (l : List AudioSampleInfo) (i : ℕ)
    (hi : i < l.length) :
    hasTranscript ((selectPrimary l).getD i dummySample)
      = hasTranscript (l.getD i dummySample) := by
  rw [selectPrimary_getD l i hi]
  rfl

theorem primaryKey_selectPrimary (l : List AudioSampleInfo) (i : ℕ)
    (hi : i < l.length) :
    primaryKey ((selectPrimary l).getD i dummySample)
      = primaryKey (l.getD i dummySample) := by
  rw [selectPrimary_getD l i hi]
  rfl

theorem transcriptIndices_selectPrimary_nil (l : List AudioSampleInfo) :
    (transcriptIndices (selectPrimary l) = []) ↔ (transcriptIndices l = []) := by
  rw [transcriptIndices_eq_nil_iff, transcriptIndices_eq_nil_iff, length_selectPrimary]
  constructor
  · intro h i hi
    rw [← hasTranscript_selectPrimary l i hi]
    exact h i hi
  · intro h i hi
    rw [hasTranscript_selectPrimary l i hi]
    exact h i hi

/-- Claim C6: after analysis of a non-empty input, exactly one record is
primary, and the primary index is a transcript-bearing candidate (when
any transcript-bearing record exists) maximising
`duration * (snr_estimate or 20.0)` among the candidates. -/
theorem analyze_unique_primary_argmax (fs : AudioFS) (paths : List String)
    (ts : Option (List (Option String))) (hne : paths ≠ []) :
    (analyze_audio_samples fs paths ts).countP (·.is_primary) = 1
    ∧ ∃ b, b < (analyze_audio_samples fs paths ts).length
        ∧ ((analyze_audio_samples fs paths ts).getD b dummySample).is_primary = true
        ∧ (transcriptIndices (analyze_audio_samples fs paths ts) ≠ [] →
            hasTranscript ((analyze_audio_samples fs paths ts).getD b dummySample) = true)
        ∧ ∀ i, i < (analyze_audio_samples fs paths ts).length →
            (transcriptIndices (analyze_audio_samples fs paths ts) ≠ [] →
              hasTranscript ((analyze_audio_samples fs paths ts).getD i dummySample) = true) →
            primaryKey ((analyze_audio_samples fs paths ts).getD i dummySample)
              ≤ primaryKey ((analyze_audio_samples fs paths ts).getD b dummySample) := by
  have hlenW : (analyzeWeighted fs paths ts).length = paths.length :=
    length_analyzeWeighted fs paths ts
  have hprev_ne : analyzeWeighted fs paths ts ≠ [] := by
    intro hc
    rw [hc] at hlenW
    exact hne (List.length_eq_zero.mp hlenW.symm)
  have hb_cand := bestIndex_mem hprev_ne
  have hb_lt : bestIndex (analyzeWeighted fs paths ts) < (analyzeWeighted fs paths ts).length :=
    (mem_primaryCandidates.mp hb_cand).1
  have hlenA : (analyze_audio_samples fs paths ts).length
      = (analyzeWeighted fs paths ts).length := by
    unfold analyze_audio_samples
    exact length_selectPrimary _
  constructor
  · exact countP_selectPrimary _ hprev_ne
  · refine ⟨bestIndex (analyzeWeighted fs paths ts), ?_, ?_, ?_, ?_⟩
    · rw [hlenA]
      exact hb_lt
    · show ((selectPrimary (analyzeWeighted fs paths ts)).getD _ dummySample).is_primary = true
      rw [selectPrimary_getD _ _ hb_lt]
      simp
    · intro hnil
      show hasTranscript ((selectPrimary (analyzeWeighted fs paths ts)).getD _ dummySample) = true
      rw [hasTranscript_selectPrimary _ _ hb_lt]
      apply (mem_primaryCandidates.mp hb_cand).2
      intro hc
      exact hnil ((transcriptIndices_selectPrimary_nil _).mpr hc)
    · intro i hi hcond
      rw [hlenA] at hi
      show primaryKey ((selectPrimary (analyzeWeighted fs paths ts)).getD i dummySample)
          ≤ primaryKey ((selectPrimary (analyzeWeighted fs paths ts)).getD _ dummySample)
      rw [primaryKey_selectPrimary _ _ hi, primaryKey_selectPrimary _ _ hb_lt]
      apply bestIndex_le hprev_ne
      apply mem_primaryCandidates.mpr
      refine ⟨hi, fun hnil => ?_⟩
      rw [← hasTranscript_selectPrimary _ _ hi]
      apply hcond
      intro hc
      exact hnil ((transcriptIndices_selectPrimary_nil _).mp hc)

/-! ## Claims C8 and C7 -/

/-- Claim C8: a single-element embeddings input short-circuits: the
result is the L2-normalisation of that embedding — a positive scalar
multiple of the input (same direction) — with no centroid, outlier or
weighting computation (the result does not depend on the weights or the
threshold). -/
theorem combine_single_embedding (e : List ℚ) (ws : Option (List ℚ)) (t : ℚ) :
    combine_speaker_embeddings [e] ws t = .ok (l2normalize e)
    ∧ ∃ c, 0 < c ∧ l2normalize e = e.map fun x => x / c :=
  ⟨rfl, max (sqrtQ ((e.map fun x => x * x).sum)) (1 / 10 ^ 12),
    l2normalize_denom_pos e, rfl⟩

/-- Claim C7 (amended): for every non-empty sample-record sequence with
strictly positive weights, `create_combined_voice_clone_prompt` in
embedding-only mode returns exactly one prompt whose `ref_code` and
`ref_text` are absent and whose `icl_mode` (reference mode) flag is
false.  (Zero weights instead surface the fusion's division error — see
the counterexample.) -/
theorem buildFusedPrompt_embedding_only (cp : String → Option String → Bool → PromptItem)
    (infos : List AudioSampleInfo) (hne : infos ≠ [])
    (hpos : ∀ s ∈ infos, 0 < s.weight) :
    ∃ emb, create_combined_voice_clone_prompt cp infos true
      = .ok [{ ref_code := none, ref_spk_embedding := emb,
               x_vector_only_mode := true, icl_mode := false, ref_text := none }] := by
  rcases infos with _ | ⟨i0, rest⟩
  · exact absurd rfl hne
  obtain ⟨v, hv⟩ : ∃ v, combine_speaker_embeddings
      (((i0 :: rest).map fun info => (info, cp info.path info.transcript true)).map
        fun p => p.2.ref_spk_embedding)
      (some (((i0 :: rest).map fun info => (info, cp info.path info.transcript true)).map
        fun p => p.1.weight))
      (7 / 10) = .ok v := by
    rcases rest with _ | ⟨i1, rest2⟩
    · exact ⟨_, rfl⟩
    · apply combine_ok_of_posWeights
      · simp
      · simp [fuseWeights]
      · intro w hw
        simp only [fuseWeights, Option.getD_some, List.map_map, List.mem_map,
          Function.comp] at hw
        rcases hw with ⟨s, hs, rfl⟩
        exact hpos s hs
  rw [create_combined_voice_clone_prompt, hv]
  exact ⟨v, rfl⟩

/-! ## Counterexamples -/

theorem combine_pair_same_zero_weights :
    combine_speaker_embeddings [[1, 0], [1, 0]] (some [0, 0]) (7 / 10)
      = .error .zeroDivisionError := by
  have hn : fuseNormed [[1, 0], [1, 0]] = [[1, 0], [1, 0]] := by
    norm_num [fuseNormed, l2normalize, sqrtQ, isqrt, isqrtGo]
  have hc : fuseCentroid [[1, 0], [1, 0]] = [1, 0] := by
    rw [fuseCentroid, hn]
    norm_num [vecMean, l2normalize, sqrtQ, isqrt, isqrtGo, List.range_succ]
  have hw : fuseWeights [[1, 0], [1, 0]] (some [0, 0]) = [0, 0] := rfl
  have hs : fuseSurvivors [[1, 0], [1, 0]] (some [0, 0]) (7 / 10)
      = [([1, 0], (0 : ℚ)), ([1, 0], 0)] := by
    rw [fuseSurvivors, hn, hw, hc]
    norm_num [List.filter, vecDot]
  have hsel : fuseSelected [[1, 0], [1, 0]] (some [0, 0]) (7 / 10)
      = ([[1, 0], [1, 0]], [0, 0]) := by
    rw [fuseSelected, hs]
    norm_num
  rw [combine_speaker_embeddings, hsel]
  norm_num

/-- Claim C1 counterexample: a non-empty embeddings sequence supplied
with weights `[0, 0]` raises `ZeroDivisionError` in the weight
renormalisation, so fusion does not return a vector for every non-empty
input with arbitrary weights. -/
theorem combine_nonempty_raises_cex :
    combine_speaker_embeddings [[1, 0], [1, 0]] (some [0, 0]) (7 / 10)
      = .error .zeroDivisionError
    ∧ ([[(1 : ℚ), 0], [1, 0]] : List (List ℚ)) ≠ [] :=
  ⟨combine_pair_same_zero_weights, by simp⟩

/-- Claim C5 counterexample: with threshold `0.7`, both opposite
embeddings fall below the threshold (their similarities to the zero
centroid are `0`), the rejection is aborted — and the fallback path then
raises `ZeroDivisionError` because the original weights `[0, 0]` sum to
zero, so fusion does fail in the all-excluded case. -/
theorem combine_all_excluded_raises_cex :
    combine_speaker_embeddings [[1, 0], [-1, 0]] (some [0, 0]) (7 / 10)
      = .error .zeroDivisionError
    ∧ vecDot (l2normalize [1, 0]) (fuseCentroid [[1, 0], [-1, 0]]) < 7 / 10
    ∧ vecDot (l2normalize [-1, 0]) (fuseCentroid [[1, 0], [-1, 0]]) < 7 / 10 := by
  have hn : fuseNormed [[1, 0], [-1, 0]] = [[1, 0], [-1, 0]] := by
    norm_num [fuseNormed, l2normalize, sqrtQ, isqrt, isqrtGo]
  have hc : fuseCentroid [[1, 0], [-1, 0]] = [0, 0] := by
    rw [fuseCentroid, hn]
    norm_num [vecMean, l2normalize, sqrtQ, isqrt, isqrtGo, List.range_succ]
  have hw : fuseWeights [[1, 0], [-1, 0]] (some [0, 0]) = [0, 0] := rfl
  have hs : fuseSurvivors [[1, 0], [-1, 0]] (some [0, 0]) (7 / 10) = [] := by
    rw [fuseSurvivors, hn, hw, hc]
    norm_num [List.filter, vecDot]
  have hsel : fuseSelected [[1, 0], [-1, 0]] (some [0, 0]) (7 / 10)
      = ([[1, 0], [-1, 0]], [0, 0]) := by
    rw [fuseSelected, hs, hn, hw]
    norm_num
  refine ⟨?_, ?_, ?_⟩
  · rw [combine_speaker_embeddings, hsel]
    norm_num
  · rw [hc]
    norm_num [vecDot, l2normalize, sqrtQ, isqrt, isqrtGo]
  · rw [hc]
    norm_num [vecDot, l2normalize, sqrtQ, isqrt, isqrtGo]

/-- Claim C7 counterexample: two records with weight `0` make the
embedded fusion raise `ZeroDivisionError`, so
`create_combined_voice_clone_prompt` does not return a prompt for every
non-empty record sequence. -/
theorem buildFusedPrompt_zero_weights_cex :
    create_combined_voice_clone_prompt cpCex
      [{ path := "a", duration := 1, weight := 0 },
       { path := "b", duration := 1, weight := 0 }] true
      = .error .zeroDivisionError := by
  rw [create_combined_voice_clone_prompt]
  have hX : (([({ path := "a", duration := 1, weight := 0 } : AudioSampleInfo),
        { path := "b", duration := 1, weight := 0 }].map
          fun info => (info, cpCex info.path info.transcript true)).map
        fun p => p.2.ref_spk_embedding) = [[1, 0], [1, 0]] := by
    norm_num [cpCex]
  have hY : (([({ path := "a", duration := 1, weight := 0 } : AudioSampleInfo),
        { path := "b", duration := 1, weight := 0 }].map
          fun info => (info, cpCex info.path info.transcript true)).map
        fun p => p.1.weight) = [0, 0] := by
    norm_num [cpCex]
  rw [hX, hY, combine_pair_same_zero_weights]

/-- Claim C2 counterexample: one unreadable path gives a sample set of
total duration `0`; the analyzer then leaves the dataclass default
weight `1.0` in place and renormalises it to `1`, not `0` as the
specification asserts. -/
theorem analyze_zero_duration_cex :
    ((analyze_audio_samples fsNone ["a"] none).map fun s => s.weight) = [1]
    ∧ (1 : ℚ) ≠ 0 := by
  constructor
  · norm_num +decide [analyze_audio_samples, analyzeWeighted, analyzeStage1,
      paddedTranscripts, fsNone, get_audio_duration, estimate_snr, totalDuration,
      totalWeight, applyDurationQualityWeights, renormalizeWeights, selectPrimary,
      transcriptIndices, primaryCandidates, bestIndex, pyMaxBy, hasTranscript,
      primaryKey, pyOr20, List.enum, List.enumFrom, List.filter]
  · norm_num

/-! ## Witnesses -/

/-- Claim C1 witness: the invalid-input iff and the no-raise conclusion
at the concrete one-element input. -/
theorem combine_valueError_iff_witness :
    ((combine_speaker_embeddings [[1, 0]] none (7 / 10) = .error .valueError)
      ↔ ([[(1 : ℚ), 0]] : List (List ℚ)) = [])
    ∧ combine_speaker_embeddings [[1, 0]] none (7 / 10) ≠ .error .valueError := by
  refine ⟨(combine_valueError_iff [[1, 0]] none (7 / 10)).1, ?_⟩
  obtain ⟨v, hv⟩ := (combine_valueError_iff [[1, 0]] none (7 / 10)).2 (by simp)
  rw [hv]
  simp

/-- Claim C2 witness: the amended statement evaluated on one unreadable
path — the single record's weight ends at `1 = 1/1`. -/
theorem analyze_uniform_weights_witness :
    ((analyze_audio_samples fsNone ["a"] none).getD 0 dummySample).weight = 1 := by
  have h0 : totalDuration (analyzeStage1 fsNone ["a"] none) = 0 := by
    norm_num [analyzeStage1, paddedTranscripts, fsNone, get_audio_duration,
      totalDuration, List.enum, List.enumFrom]
  have h := analyze_uniform_weights_of_zero_duration fsNone ["a"] none (by simp) h0
  have hlen : 0 < (analyze_audio_samples fsNone ["a"] none).length := by
    rw [length_analyze]
    norm_num
  have hmem : (analyze_audio_samples fsNone ["a"] none).getD 0 dummySample
      ∈ analyze_audio_samples fsNone ["a"] none := by
    rw [List.getD_eq_getElem?_getD, List.getElem?_eq_getElem hlen]
    exact List.getElem_mem hlen
  rw [h _ hmem]
  norm_num

/-- Claim C3 witness: one unreadable path with an empty (shorter)
transcripts list — padded transcript `None`, duration `0`, 20 dB
fallback, and no exception (the model is total). -/
theorem analyzeSamples_never_raises_witness :
    ((analyze_audio_samples fsNone ["bad"] (some [])).getD 0 dummySample).transcript = none
    ∧ ((analyze_audio_samples fsNone ["bad"] (some [])).getD 0 dummySample).duration = 0
    ∧ ((analyze_audio_samples fsNone ["bad"] (some [])).getD 0 dummySample).snr_estimate
        = some 20 := by
  have h := analyzeSamples_never_raises fsNone ["bad"] []
  exact ⟨h.2.1 0 (by norm_num) (by norm_num),
    (h.2.2 0 (by norm_num) rfl).1, (h.2.2 0 (by norm_num) rfl).2⟩

/-- Claim C4 witness: a readable 5-second file gives positive total
duration; the resulting weight is nonnegative and the weight sum is `1`
within `1e-6`. -/
theorem analyze_weights_nonneg_sum_one_witness :
    0 ≤ ((analyze_audio_samples fsOne ["a"] none).getD 0 dummySample).weight
    ∧ |totalWeight (analyze_audio_samples fsOne ["a"] none) - 1| ≤ 1 / 10 ^ 6 := by
  have hD : 0 < totalDuration (analyzeStage1 fsOne ["a"] none) := by
    norm_num [analyzeStage1, paddedTranscripts, fsOne, audioA, get_audio_duration,
      totalDuration, List.enum, List.enumFrom, List.replicate]
  have h := analyze_weights_nonneg_sum_one fsOne ["a"] none hD
  refine ⟨?_, h.2⟩
  have hlen : 0 < (analyze_audio_samples fsOne ["a"] none).length := by
    rw [length_analyze]
    norm_num
  apply h.1
  rw [List.getD_eq_getElem?_getD, List.getElem?_eq_getElem hlen]
  exact List.getElem_mem hlen

/-- Claim C5 witness: two opposite embeddings with default weights — the
whole set is below the `0.7` threshold, and fusion returns
`normalize(weighted mean of the full set)`, here the zero vector. -/
theorem combine_all_excluded_witness :
    combine_speaker_embeddings [[1, 0], [-1, 0]] none (7 / 10)
      = .ok (l2normalize (weightedSum (fuseNormed [[1, 0], [-1, 0]])
          ((fuseWeights [[1, 0], [-1, 0]] none).map fun w =>
            w / (fuseWeights [[1, 0], [-1, 0]] none).sum)))
    ∧ combine_speaker_embeddings [[1, 0], [-1, 0]] none (7 / 10) = .ok [0, 0] := by
  have hn : fuseNormed [[1, 0], [-1, 0]] = [[1, 0], [-1, 0]] := by
    norm_num [fuseNormed, l2normalize, sqrtQ, isqrt, isqrtGo]
  have hc : fuseCentroid [[1, 0], [-1, 0]] = [0, 0] := by
    rw [fuseCentroid, hn]
    norm_num [vecMean, l2normalize, sqrtQ, isqrt, isqrtGo, List.range_succ]
  have hw : fuseWeights [[1, 0], [-1, 0]] none = [1, 1] := rfl
  have hmain := combine_all_excluded [[1, 0], [-1, 0]] none (7 / 10) (by norm_num)
    (by norm_num)
    (by
      intro p hp
      rw [hn, hw] at hp
      rw [hc]
      have hz : (([[1, 0], [-1, 0]] : List (List ℚ)).zip ([1, 1] : List ℚ))
          = [([1, 0], 1), ([-1, 0], 1)] := rfl
      rw [hz] at hp
      simp only [List.mem_cons, List.not_mem_nil, or_false] at hp
      rcases hp with rfl | rfl
      · norm_num [vecDot]
      · norm_num [vecDot])
    (by rw [hw]; norm_num)
  refine ⟨hmain, ?_⟩
  rw [hmain, hn, hw]
  norm_num [weightedSum, l2normalize, sqrtQ, isqrt, isqrtGo, List.zipWith, List.zip,
    List.replicate]

/-- Claim C7 witness: a single positively weighted record in
embedding-only mode — one prompt, no reference code, no reference text,
reference mode off. -/
theorem buildFusedPrompt_embedding_only_witness :
    (create_combined_voice_clone_prompt cpW
        [{ path := "a", duration := 1, transcript := none, snr_estimate := none,
           is_primary := true, weight := 1 }] true).map
      (fun l => l.map fun p => (p.ref_code, p.ref_text, p.icl_mode, p.x_vector_only_mode))
      = .ok [(none, none, false, true)] := by
  obtain ⟨emb, hemb⟩ := buildFusedPrompt_embedding_only cpW
    [{ path := "a", duration := 1, transcript := none, snr_estimate := none,
       is_primary := true, weight := 1 }] (by simp)
    (by
      intro s hs
      rw [List.mem_singleton] at hs
      subst hs
      norm_num)
  rw [hemb]
  rfl

/-- Claim C10 witness: a record with SNR estimate exactly `0.0` next to
a 40 dB record — its weight uses the `0.5` quality fallback and its
selection key is `duration * 20`. -/
theorem snr_zero_treated_as_twenty_witness :
    ((applyDurationQualityWeights
        [{ path := "p", duration := 1, snr_estimate := some 0 },
         { path := "q", duration := 1, snr_estimate := some 40 }]).getD 0
        dummySample).weight
      = 7 / 10 * ((([{ path := "p", duration := 1, snr_estimate := some 0 },
            { path := "q", duration := 1, snr_estimate := some 40 }] :
            List AudioSampleInfo).getD 0 dummySample).duration
          / totalDuration [{ path := "p", duration := 1, snr_estimate := some 0 },
            { path := "q", duration := 1, snr_estimate := some 40 }])
        + 3 / 10 * (1 / 2)
    ∧ primaryKey (([{ path := "p", duration := 1, snr_estimate := some 0 },
          { path := "q", duration := 1, snr_estimate := some 40 }] :
          List AudioSampleInfo).getD 0 dummySample)
        = (([{ path := "p", duration := 1, snr_estimate := some 0 },
            { path := "q", duration := 1, snr_estimate := some 40 }] :
            List AudioSampleInfo).getD 0 dummySample).duration * 20 :=
  snr_zero_treated_as_twenty
    [{ path := "p", duration := 1, snr_estimate := some 0 },
     { path := "q", duration := 1, snr_estimate := some 40 }] 0
    (by norm_num) (by norm_num [totalDuration]) rfl

set_option maxHeartbeats 1000000 in
/-- Claim C6 witness: two transcript-bearing files where the second has
the larger `duration * quality` key — exactly one primary, reassigned
from the default first record to the second. -/
theorem analyze_unique_primary_witness :
    (analyze_audio_samples fsW ["a", "b"] (some [some "x", some "y"])).countP
        (·.is_primary) = 1
    ∧ ((analyze_audio_samples fsW ["a", "b"] (some [some "x", some "y"])).getD 1
        dummySample).is_primary = true
    ∧ ((analyze_audio_samples fsW ["a", "b"] (some [some "x", some "y"])).getD 0
        dummySample).is_primary = false := by
  have hsa : estimate_snr fsW "a" = 20 := by
    norm_num +decide [estimate_snr, fsW, audioA, chanMean, npMean, sqrtQ, isqrt,
      isqrtGo, pyInt, Int.tdiv, List.replicate]
  have hsb : estimate_snr fsW "b" = 40 := by
    norm_num +decide [estimate_snr, fsW, audioB, chanMean, npMean, sqrtQ, isqrt,
      isqrtGo, pyInt, Int.tdiv, Int.toNat, npPercentile, sortAsc, insertSorted,
      List.range_succ]
  have hda : get_audio_duration fsW "a" = 5 := by
    norm_num +decide [get_audio_duration, fsW, audioA, List.replicate]
  have hdb : get_audio_duration fsW "b" = 10 := by
    norm_num +decide [get_audio_duration, fsW, audioB]
  have hstage : analyzeStage1 fsW ["a", "b"] (some [some "x", some "y"])
      = [{ path := "a", duration := 5, transcript := some "x", snr_estimate := some 20,
           is_primary := true, weight := 1 },
         { path := "b", duration := 10, transcript := some "y", snr_estimate := some 40,
           is_primary := false, weight := 1 }] := by
    norm_num +decide [analyzeStage1, paddedTranscripts, hsa, hsb, hda, hdb,
      List.enum, List.enumFrom]
  have happ : analyzeWeighted fsW ["a", "b"] (some [some "x", some "y"])
      = [{ path := "a", duration := 5, transcript := some "x", snr_estimate := some 20,
           is_primary := true, weight := 1 / 3 },
         { path := "b", duration := 10, transcript := some "y", snr_estimate := some 40,
           is_primary := false, weight := 2 / 3 }] := by
    rw [analyzeWeighted, hstage]
    norm_num [applyDurationQualityWeights, renormalizeWeights, totalDuration,
      totalWeight, pyOr20, min_def]
  have hhx : hasTranscript
      { path := "a", duration := 5, transcript := some "x",
        snr_estimate := some 20, is_primary := true, weight := (1 : ℚ) / 3 } = true := by
    norm_num +decide [hasTranscript, pyStrip]
  have hhy : hasTranscript
      { path := "b", duration := 10, transcript := some "y",
        snr_estimate := some 40, is_primary := false, weight := (2 : ℚ) / 3 } = true := by
    norm_num +decide [hasTranscript, pyStrip]
  have htx : transcriptIndices
      [{ path := "a", duration := 5, transcript := some "x", snr_estimate := some 20,
         is_primary := true, weight := 1 / 3 },
       { path := "b", duration := 10, transcript := some "y", snr_estimate := some 40,
         is_primary := false, weight := 2 / 3 }] = [0, 1] := by
    norm_num [transcriptIndices, List.enum, List.enumFrom, List.filter, hhx, hhy]
  have hbest : bestIndex
      [{ path := "a", duration := 5, transcript := some "x", snr_estimate := some 20,
         is_primary := true, weight := 1 / 3 },
       { path := "b", duration := 10, transcript := some "y", snr_estimate := some 40,
         is_primary := false, weight := 2 / 3 }] = 1 := by
    rw [bestIndex, primaryCandidates, htx]
    norm_num [pyMaxBy, primaryKey, pyOr20, dummySample]
  have hana : analyze_audio_samples fsW ["a", "b"] (some [some "x", some "y"])
      = selectPrimary
        [{ path := "a", duration := 5, transcript := some "x", snr_estimate := some 20,
           is_primary := true, weight := 1 / 3 },
         { path := "b", duration := 10, transcript := some "y", snr_estimate := some 40,
           is_primary := false, weight := 2 / 3 }] := by
    rw [analyze_audio_samples, happ]
  refine ⟨(analyze_unique_primary_argmax fsW ["a", "b"] (some [some "x", some "y"])
      (by simp)).1, ?_, ?_⟩
  · rw [hana]
    norm_num [selectPrimary, hbest, List.enum, List.enumFrom]
  · rw [hana]
    norm_num [selectPrimary, hbest, List.enum, List.enumFrom]

